import Mathlib

/-!
Verification of `src/stress_plot.py` (topspin10/Stress_Watch).

The script `create_hrv_plot` loads a CSV with pandas, validates that the
three required columns are present (after stripping surrounding whitespace
from each header name), groups the rows by subject (first-appearance order)
and by the category labels `Yes` / `No`, computes per-group medians and
means, draws box plots, jittered scatter points and a per-subject threshold
marker, and saves the chart to a fixed PNG path.

The embedding below models:
  * a CSV cell as either a parsed number or a raw string: a token that
    parses neither as a number nor as one of pandas' NA sentinels (such as
    `n/a`, `NA`, `NaN`) keeps its column at object dtype with the string
    preserved, and calling `.median()` on such data raises an exception
    that `create_hrv_plot` does not catch. NA sentinels themselves parse
    to `NaN` and are not modelled; no settled statement depends on them;
  * the result of `pd.read_csv` as `ReadCsvResult` (file-not-found is the
    only exception the script catches; other open failures such as
    `PermissionError` and parse failures such as `ParserError` propagate);
  * the observable outcome of one invocation as `Outcome`: the handled
    error reports, an uncaught exception (`raised` — the interpreter prints
    a traceback, and no image file is written), or a saved chart together
    with everything drawn on it;
  * the random horizontal jitter (`np.random.uniform(-0.04, 0.04, ...)`)
    as an explicit parameter giving the draw for each scatter point.
-/

namespace StressWatch

/-- A single CSV cell: pandas either parses a column numerically or keeps
the raw strings. Measurements are modelled exactly as rationals. A
`Cell.str` in a measurement column stands for a token that is neither
numeric nor one of pandas' NA sentinels (those would load as `NaN`, which
this embedding does not model). -/
inductive Cell where
  | num (q : ℚ)
  | str (s : String)
deriving DecidableEq, Repr

/-- The two recognized category labels of the `Stress or not` column. -/
inductive Cat where
  | yes
  | no
deriving DecidableEq, Repr

/-- The label string of a category, as compared against cell contents. -/
def Cat.label : Cat → String
  | Cat.yes => "Yes"
  | Cat.no => "No"

/-- A parsed data frame: the raw header names and the rows of cells. -/
structure Frame where
  header : List String
  rows : List (List Cell)
deriving DecidableEq, Repr

/-- Embedding of Python's `str.strip()` as used on the header names:
drop whitespace characters from both ends. -/
def pyStrip (s : String) : String :=
  ⟨((s.data.dropWhile Char.isWhitespace).reverse.dropWhile Char.isWhitespace).reverse⟩

/-- The possible results of the `pd.read_csv(csv_path)` call.  Only
`FileNotFoundError` is caught by the script; an existing but unreadable
path (`PermissionError`, `IsADirectoryError`, ...) and a parse failure
(`ParserError`, `UnicodeDecodeError`, ...) raise exceptions that propagate
out of `create_hrv_plot`. -/
inductive ReadCsvResult where
  | fileNotFound
  | unreadableOther
  | parseError
  | frame (df : Frame)
deriving DecidableEq, Repr

/-- `required = ["Subject", "HRV (ms)", "Stress or not"]` from the source. -/
def required : List String := ["Subject", "HRV (ms)", "Stress or not"]

/-- `df.columns = [c.strip() for c in df.columns]`: the header after
stripping each name. -/
def trimmedHeader (df : Frame) : List String := df.header.map pyStrip

/-- Index of a column name in the stripped header. -/
def colIdx (df : Frame) (name : String) : ℕ := (trimmedHeader df).indexOf name

/-- The cell of row `r` in the named column. -/
def cellAt (df : Frame) (r : List Cell) (name : String) : Cell :=
  r.getD (colIdx df name) (Cell.str "")

/-- The `Subject` column, i.e. `df['Subject']`. -/
def subjectCol (df : Frame) : List Cell :=
  df.rows.map (fun r => cellAt df r "Subject")

/-- Embedding of `pandas.Series.unique()`: the distinct values in order of
first appearance. -/
def uniqueFirst {α : Type} [DecidableEq α] (l : List α) : List α :=
  l.foldl (fun acc x => if x ∈ acc then acc else acc ++ [x]) []

/-- Row predicate of the selection
`df[(df['Subject'] == sub) & (df['Stress or not'] == category)]`.
After `pd.Categorical(..., categories=['Yes','No'])` any other category
value becomes `NaN` and compares unequal to both labels, so comparing the
raw cell against the label is the faithful test. -/
def rowInGroup (df : Frame) (sub : Cell) (cat : Cat) (r : List Cell) : Bool :=
  decide (cellAt df r "Subject" = sub) &&
    decide (cellAt df r "Stress or not" = Cell.str (Cat.label cat))

/-- The rows selected for one (subject, category) group. -/
def groupRows (df : Frame) (sub : Cell) (cat : Cat) : List (List Cell) :=
  df.rows.filter (rowInGroup df sub cat)

/-- `cat_data`: the `HRV (ms)` cells of the selected rows. -/
def cat_data (df : Frame) (sub : Cell) (cat : Cat) : List Cell :=
  (groupRows df sub cat).map (fun r => cellAt df r "HRV (ms)")

/-- Numeric view of one cell; `none` for a raw string. -/
def cellNum? : Cell → Option ℚ
  | Cell.num q => some q
  | Cell.str _ => none

/-- Numeric view of a series; `none` when any cell is a raw string, in
which case `pandas.Series.median()` raises. -/
def numsOf : List Cell → Option (List ℚ)
  | [] => some []
  | c :: cs =>
    match cellNum? c, numsOf cs with
    | some q, some vs => some (q :: vs)
    | _, _ => none

/-- Embedding of `pandas.Series.median()` on numeric data: sort, take the
middle element for odd length, the average of the two middle elements for
even length. -/
def median (vs : List ℚ) : ℚ :=
  if vs.length % 2 = 1 then (List.insertionSort (· ≤ ·) vs).getD (vs.length / 2) 0
  else ((List.insertionSort (· ≤ ·) vs).getD (vs.length / 2 - 1) 0 +
        (List.insertionSort (· ≤ ·) vs).getD (vs.length / 2) 0) / 2

/-- Arithmetic mean (drawn by `showmeans=True, meanline=True`). -/
def mean (vs : List ℚ) : ℚ := vs.sum / vs.length

/-- `cat_data.median()` as the script calls it: `none` models the raised
exception on non-numeric data. -/
def seriesMedian (cs : List Cell) : Option ℚ := (numsOf cs).map median

/-- `cat_data.mean()` analogue (the mean indicator shown in the box). -/
def seriesMean (cs : List Cell) : Option ℚ := (numsOf cs).map mean

/-- `offset = 0.2` from the source. -/
def offset : ℚ := 1/5

/-- `box_width = 0.15` from the source. -/
def box_width : ℚ := 3/20

/-- Bound of `np.random.uniform(-0.04, 0.04, ...)`. -/
def jitterBound : ℚ := 1/25

/-- `x_pos = i - offset if category == 'Yes' else i + offset`. -/
def xPosOf (i : ℕ) (cat : Cat) : ℚ :=
  if cat = Cat.yes then (i : ℚ) - offset else (i : ℚ) + offset

/-- The per-invocation stream of jitter draws: the draw used for point `k`
of the group of subject index `i` and category `cat`. -/
abbrev Jitter : Type := ℕ → Cat → ℕ → ℚ

/-- The zero jitter stream (one possible sequence of draws). -/
def jit0 : Jitter := fun _ _ _ => 0

/-- Everything drawn for one non-empty (subject, category) group: the box
plot data with its median and mean indicators, and the jittered scatter
points `(x_pos + jitter[k], value[k])`. -/
structure GroupVisual where
  subjectIdx : ℕ
  category : Cat
  xPos : ℚ
  boxData : List ℚ
  med : ℚ
  avg : ℚ
  scatter : List (ℚ × ℚ)
deriving DecidableEq, Repr

/-- The purple `x` threshold marker of one subject. -/
structure ThresholdMark where
  subjectIdx : ℕ
  x : ℚ
  y : ℚ
deriving DecidableEq, Repr

/-- The composed chart as saved: group visuals, threshold markers, the
x-axis ticks `plt.xticks(range(len(subjects)), subjects)`, and the output
file name. -/
structure Chart where
  groups : List GroupVisual
  thresholds : List ThresholdMark
  xticks : List (ℕ × Cell)
  savedFile : String
deriving DecidableEq, Repr

/-- The observable outcome of one call of `create_hrv_plot`.  `raised`
stands for an exception that the script does not catch: the interpreter
prints its traceback and no image file is written. -/
inductive Outcome where
  | inputNotFound
  | schemaError (missingCol : String) (found : List String)
  | raised
  | saved (chart : Chart)
deriving DecidableEq, Repr

/-- The group visual built for subject index `i`, category `cat` and
numeric values `vs`. -/
def mkGV (jit : Jitter) (i : ℕ) (cat : Cat) (vs : List ℚ) : GroupVisual :=
  { subjectIdx := i
    category := cat
    xPos := xPosOf i cat
    boxData := vs
    med := median vs
    avg := mean vs
    scatter := vs.enum.map (fun q => (xPosOf i cat + jit i cat q.1, q.2)) }

/-- One iteration of the inner `for category in ['Yes', 'No']` loop body:
an empty group is skipped (`continue`), non-numeric data raises at
`cat_data.median()`, and otherwise the box and scatter are drawn and the
median recorded. -/
def buildGroup (df : Frame) (jit : Jitter) (i : ℕ) (sub : Cell) (cat : Cat) :
    Except Unit (Option GroupVisual) :=
  if cat_data df sub cat = [] then Except.ok none
  else
    match numsOf (cat_data df sub cat) with
    | none => Except.error ()
    | some vs => Except.ok (some (mkGV jit i cat vs))

/-- The threshold marker of the subject at index `i`: drawn exactly when
the `medians` dict holds both keys, i.e. both groups were drawn, at the
subject's base position `i` with value the midpoint of the two medians. -/
def thrOf (i : ℕ) : Option GroupVisual → Option GroupVisual → Option ThresholdMark
  | some a, some b => some ⟨i, (i : ℚ), (a.med + b.med) / 2⟩
  | _, _ => none

/-- One iteration of the outer `for i, sub in enumerate(subjects)` loop:
both categories in order `Yes` then `No`, then the threshold marker. -/
def buildSubject (df : Frame) (jit : Jitter) (i : ℕ) (sub : Cell) :
    Except Unit (List GroupVisual × Option ThresholdMark) :=
  match buildGroup df jit i sub Cat.yes with
  | Except.error e => Except.error e
  | Except.ok gy =>
    match buildGroup df jit i sub Cat.no with
    | Except.error e => Except.error e
    | Except.ok gn => Except.ok (gy.toList ++ gn.toList, thrOf i gy gn)

/-- The whole subject loop, accumulating group visuals and thresholds. -/
def buildSubjects (df : Frame) (jit : Jitter) :
    List Cell → ℕ → Except Unit (List GroupVisual × List ThresholdMark)
  | [], _ => Except.ok ([], [])
  | sub :: rest, i =>
    match buildSubject df jit i sub with
    | Except.error e => Except.error e
    | Except.ok (gs, thr) =>
      match buildSubjects df jit rest (i + 1) with
      | Except.error e => Except.error e
      | Except.ok (gs2, thrs) => Except.ok (gs ++ gs2, thr.toList ++ thrs)

/-- `output_png = 'hrv_stress_plot.png'` from the source. -/
def output_png : String := "hrv_stress_plot.png"

/-- Embedding of `create_hrv_plot`: catch only file-not-found, strip the
header names, report the first required column that is missing (together
with the stripped column list) and return, otherwise run the subject loop
and save the chart.  `plt.show()` failures are swallowed and change
nothing observable. -/
def create_hrv_plot (input : ReadCsvResult) (jit : Jitter) : Outcome :=
  match input with
  | ReadCsvResult.fileNotFound => Outcome.inputNotFound
  | ReadCsvResult.unreadableOther => Outcome.raised
  | ReadCsvResult.parseError => Outcome.raised
  | ReadCsvResult.frame df =>
    match required.find? (fun c => !((trimmedHeader df).contains c)) with
    | some c => Outcome.schemaError c (trimmedHeader df)
    | none =>
      match buildSubjects df jit (uniqueFirst (subjectCol df)) 0 with
      | Except.error _ => Outcome.raised
      | Except.ok (gs, thrs) =>
        Outcome.saved
          { groups := gs
            thresholds := thrs
            xticks := (uniqueFirst (subjectCol df)).enum
            savedFile := output_png }

/-- The image files written by one invocation: exactly the saved chart's
file on success, nothing on any error path. -/
def filesWritten : Outcome → List String
  | Outcome.saved c => [c.savedFile]
  | _ => []

/-- Whether the invocation reports an error to the console: the two
handled reports print `Error: ...` lines, and an uncaught exception makes
the interpreter print a traceback; only a successful save reports no
error. -/
def producesErrorReport : Outcome → Bool
  | Outcome.inputNotFound => true
  | Outcome.schemaError _ _ => true
  | Outcome.raised => true
  | Outcome.saved _ => false

/-- The required columns missing from the stripped header, in the fixed
check order of `required`. -/
def missingCols (df : Frame) : List String :=
  required.filter (fun c => !((trimmedHeader df).contains c))

/-- The threshold marker of subject `sub` at index `i`, described purely
from the groups: present exactly when both groups are non-empty (and their
medians computable), at base position `i`, with value the midpoint of the
two group medians. -/
def thrPure (df : Frame) (i : ℕ) (sub : Cell) : Option ThresholdMark :=
  if cat_data df sub Cat.yes ≠ [] ∧ cat_data df sub Cat.no ≠ [] then
    match seriesMedian (cat_data df sub Cat.yes),
          seriesMedian (cat_data df sub Cat.no) with
    | some a, some b => some ⟨i, (i : ℚ), (a + b) / 2⟩
    | _, _ => none
  else none

/-- The chart of a successful invocation (junk chart on any error path). -/
def chartOf (input : ReadCsvResult) (jit : Jitter) : Chart :=
  match create_hrv_plot input jit with
  | Outcome.saved c => c
  | _ => { groups := [], thresholds := [], xticks := [], savedFile := "" }

theorem find?_eq_head?_filter {α : Type} (p : α → Bool) :
    ∀ l : List α, l.find? p = (l.filter p).head?
  | [] => rfl
  | a :: l => by
    cases h : p a
    · have h' : ¬ p a = true := by simp [h]
      rw [List.find?_cons_of_neg _ h', List.filter_cons_of_neg h',
        find?_eq_head?_filter p l]
    · rw [List.find?_cons_of_pos _ h, List.filter_cons_of_pos h, List.head?_cons]

/-! ### Lemmas about `numsOf` -/

theorem numsOf_cons_eq_none (c : Cell) (cs : List Cell) :
    numsOf (c :: cs) = none ↔ (cellNum? c = none ∨ numsOf cs = none) := by
  cases hc : cellNum? c <;> cases hcs : numsOf cs <;> simp [numsOf, hc, hcs]

theorem numsOf_eq_none_iff : ∀ cs : List Cell,
    numsOf cs = none ↔ ∃ c ∈ cs, cellNum? c = none
  | [] => by simp [numsOf]
  | c :: cs => by
    rw [numsOf_cons_eq_none, numsOf_eq_none_iff cs]
    constructor
    · rintro (h | ⟨d, hd, hdn⟩)
      · exact ⟨c, List.mem_cons_self c cs, h⟩
      · exact ⟨d, List.mem_cons_of_mem _ hd, hdn⟩
    · rintro ⟨d, hd, hdn⟩
      rcases List.mem_cons.mp hd with rfl | hd
      · exact Or.inl hdn
      · exact Or.inr ⟨d, hd, hdn⟩

theorem numsOf_isSome (cs : List Cell) (h : ∀ c ∈ cs, (cellNum? c).isSome) :
    ∃ vs, numsOf cs = some vs := by
  cases hn : numsOf cs with
  | some vs => exact ⟨vs, rfl⟩
  | none =>
    obtain ⟨c, hc, hcn⟩ := (numsOf_eq_none_iff cs).mp hn
    have := h c hc
    rw [hcn] at this
    cases this

theorem numsOf_length : ∀ (cs : List Cell) (vs : List ℚ),
    numsOf cs = some vs → vs.length = cs.length := by
  intro cs
  induction cs with
  | nil => intro vs h; cases h; rfl
  | cons c cs ih =>
    intro vs h
    cases hc : cellNum? c with
    | none => rw [numsOf, hc] at h; cases h
    | some q =>
      cases hcs : numsOf cs with
      | none => rw [numsOf, hc, hcs] at h; cases h
      | some ws =>
        rw [numsOf, hc, hcs] at h
        cases h
        simp [ih ws hcs]

theorem numsOf_ne_nil (cs : List Cell) (vs : List ℚ)
    (h : numsOf cs = some vs) (hne : cs ≠ []) : vs ≠ [] := by
  intro hv
  apply hne
  have := numsOf_length cs vs h
  rw [hv] at this
  exact List.length_eq_zero.mp this.symm

/-! ### Lemmas about `uniqueFirst` -/

theorem uniqueFirst_append_singleton {α : Type} [DecidableEq α] (l : List α) (x : α) :
    uniqueFirst (l ++ [x]) =
      if x ∈ uniqueFirst l then uniqueFirst l else uniqueFirst l ++ [x] := by
  simp [uniqueFirst, List.foldl_append]

theorem mem_uniqueFirst {α : Type} [DecidableEq α] (l : List α) :
    ∀ x, x ∈ uniqueFirst l ↔ x ∈ l := by
  induction l using List.reverseRecOn with
  | nil => intro x; simp [uniqueFirst]
  | append_singleton l y ih =>
    intro x
    rw [uniqueFirst_append_singleton]
    by_cases hy : y ∈ uniqueFirst l
    · rw [if_pos hy]
      rw [ih]
      constructor
      · intro h; exact List.mem_append_left _ h
      · intro h
        rcases List.mem_append.mp h with h | h
        · exact h
        · rw [List.mem_singleton.mp h]; exact (ih y).mp hy
    · rw [if_neg hy]
      simp only [List.mem_append, ih, List.mem_singleton]

theorem pairwise_indexOf_uniqueFirst {α : Type} [DecidableEq α] (l : List α) :
    (uniqueFirst l).Pairwise (fun a b => l.indexOf a < l.indexOf b) := by
  induction l using List.reverseRecOn with
  | nil => simp [uniqueFirst]
  | append_singleton l y ih =>
    rw [uniqueFirst_append_singleton]
    by_cases hy : y ∈ uniqueFirst l
    · rw [if_pos hy]
      refine ih.imp_of_mem ?_
      intro a b ha hb hab
      rw [List.indexOf_append_of_mem ((mem_uniqueFirst l a).mp ha),
        List.indexOf_append_of_mem ((mem_uniqueFirst l b).mp hb)]
      exact hab
    · rw [if_neg hy]
      rw [List.pairwise_append]
      refine ⟨?_, List.pairwise_singleton _ _, ?_⟩
      · refine ih.imp_of_mem ?_
        intro a b ha hb hab
        rw [List.indexOf_append_of_mem ((mem_uniqueFirst l a).mp ha),
          List.indexOf_append_of_mem ((mem_uniqueFirst l b).mp hb)]
        exact hab
      · intro a ha b hb
        rw [List.mem_singleton.mp hb]
        have hal : a ∈ l := (mem_uniqueFirst l a).mp ha
        have hyl : y ∉ l := fun h => hy ((mem_uniqueFirst l y).mpr h)
        rw [List.indexOf_append_of_mem hal, List.indexOf_append_of_not_mem hyl]
        calc l.indexOf a < l.length := List.indexOf_lt_length.mpr hal
          _ ≤ l.length + [y].indexOf y := Nat.le_add_right _ _

theorem nodup_uniqueFirst {α : Type} [DecidableEq α] (l : List α) :
    (uniqueFirst l).Nodup := by
  refine (pairwise_indexOf_uniqueFirst l).imp ?_
  intro a b hab
  intro h
  rw [h] at hab
  exact lt_irrefl _ hab

/-! ### Inversion lemmas for the loop embedding -/

theorem buildGroup_ok_none_iff (df : Frame) (jit : Jitter) (i : ℕ) (sub : Cell)
    (cat : Cat) :
    buildGroup df jit i sub cat = Except.ok none ↔ cat_data df sub cat = [] := by
  unfold buildGroup
  by_cases h : cat_data df sub cat = []
  · simp [h]
  · rw [if_neg h]
    cases hn : numsOf (cat_data df sub cat) <;> simp [h]

theorem buildGroup_ok_some_iff (df : Frame) (jit : Jitter) (i : ℕ) (sub : Cell)
    (cat : Cat) (g : GroupVisual) :
    buildGroup df jit i sub cat = Except.ok (some g) ↔
      (cat_data df sub cat ≠ [] ∧
        ∃ vs, numsOf (cat_data df sub cat) = some vs ∧ g = mkGV jit i cat vs) := by
  unfold buildGroup
  by_cases h : cat_data df sub cat = []
  · simp [h]
  · rw [if_neg h]
    cases hn : numsOf (cat_data df sub cat) with
    | none => simp [h, hn]
    | some vs =>
      simp only [h, hn, ne_eq, not_false_eq_true, true_and]
      constructor
      · intro he
        injection he with he
        injection he with he
        exact ⟨vs, rfl, he.symm⟩
      · rintro ⟨ws, hws, rfl⟩
        injection hws with hws
        rw [hws]

theorem buildSubject_ok_elim (df : Frame) (jit : Jitter) (i : ℕ) (sub : Cell)
    (gl : List GroupVisual) (thr : Option ThresholdMark)
    (h : buildSubject df jit i sub = Except.ok (gl, thr)) :
    ∃ gy gn, buildGroup df jit i sub Cat.yes = Except.ok gy ∧
      buildGroup df jit i sub Cat.no = Except.ok gn ∧
      gl = gy.toList ++ gn.toList ∧ thr = thrOf i gy gn := by
  unfold buildSubject at h
  cases hy : buildGroup df jit i sub Cat.yes with
  | error e => rw [hy] at h; cases h
  | ok gy =>
    rw [hy] at h
    cases hn : buildGroup df jit i sub Cat.no with
    | error e => rw [hn] at h; cases h
    | ok gn =>
      rw [hn] at h
      injection h with h
      injection h with h1 h2
      exact ⟨gy, gn, rfl, rfl, h1.symm, h2.symm⟩

/-- The threshold computed by one subject iteration is `thrPure`. -/
theorem buildSubject_ok_thr (df : Frame) (jit : Jitter) (i : ℕ) (sub : Cell)
    (gl : List GroupVisual) (thr : Option ThresholdMark)
    (h : buildSubject df jit i sub = Except.ok (gl, thr)) :
    thr = thrPure df i sub := by
  obtain ⟨gy, gn, hy, hn, _, hthr⟩ := buildSubject_ok_elim df jit i sub gl thr h
  unfold thrPure
  cases gy with
  | none =>
    have hye : cat_data df sub Cat.yes = [] := (buildGroup_ok_none_iff df jit i sub Cat.yes).mp hy
    rw [if_neg (by simp [hye])]
    cases gn <;> simpa using hthr
  | some a =>
    obtain ⟨hyne, vsy, hvsy, hag⟩ := (buildGroup_ok_some_iff df jit i sub Cat.yes a).mp hy
    cases gn with
    | none =>
      have hne : cat_data df sub Cat.no = [] := (buildGroup_ok_none_iff df jit i sub Cat.no).mp hn
      rw [if_neg (by simp [hne])]
      simpa using hthr
    | some b =>
      obtain ⟨hnne, vsn, hvsn, hbg⟩ := (buildGroup_ok_some_iff df jit i sub Cat.no b).mp hn
      rw [if_pos ⟨hyne, hnne⟩]
      rw [seriesMedian, seriesMedian, hvsy, hvsn]
      simp only [Option.map_some']
      rw [hthr]
      simp only [hag, hbg, mkGV]
      rfl

/-- When one subject iteration succeeds, every non-empty group of that
subject has numeric data. -/
theorem buildSubject_ok_numeric (df : Frame) (jit : Jitter) (i : ℕ) (sub : Cell)
    (w : List GroupVisual × Option ThresholdMark)
    (h : buildSubject df jit i sub = Except.ok w) (cat : Cat)
    (hne : cat_data df sub cat ≠ []) :
    ∃ vs, numsOf (cat_data df sub cat) = some vs := by
  obtain ⟨gl, thr⟩ := w
  obtain ⟨gy, gn, hy, hn, _, _⟩ := buildSubject_ok_elim df jit i sub gl thr h
  cases cat with
  | yes =>
    cases gy with
    | none => exact absurd ((buildGroup_ok_none_iff df jit i sub Cat.yes).mp hy) hne
    | some a =>
      obtain ⟨_, vs, hvs, _⟩ := (buildGroup_ok_some_iff df jit i sub Cat.yes a).mp hy
      exact ⟨vs, hvs⟩
  | no =>
    cases gn with
    | none => exact absurd ((buildGroup_ok_none_iff df jit i sub Cat.no).mp hn) hne
    | some b =>
      obtain ⟨_, vs, hvs, _⟩ := (buildGroup_ok_some_iff df jit i sub Cat.no b).mp hn
      exact ⟨vs, hvs⟩

theorem buildSubjects_ok_cons_elim (df : Frame) (jit : Jitter) (sub : Cell)
    (rest : List Cell) (i : ℕ) (gs : List GroupVisual) (thrs : List ThresholdMark)
    (h : buildSubjects df jit (sub :: rest) i = Except.ok (gs, thrs)) :
    ∃ gl thr gs2 thrs2,
      buildSubject df jit i sub = Except.ok (gl, thr) ∧
      buildSubjects df jit rest (i + 1) = Except.ok (gs2, thrs2) ∧
      gs = gl ++ gs2 ∧ thrs = thr.toList ++ thrs2 := by
  unfold buildSubjects at h
  cases h1 : buildSubject df jit i sub with
  | error e => rw [h1] at h; cases h
  | ok w =>
    obtain ⟨gl, thr⟩ := w
    rw [h1] at h
    cases h2 : buildSubjects df jit rest (i + 1) with
    | error e => rw [h2] at h; cases h
    | ok w2 =>
      obtain ⟨gs2, thrs2⟩ := w2
      rw [h2] at h
      injection h with h
      injection h with ha hb
      exact ⟨gl, thr, gs2, thrs2, rfl, rfl, ha.symm, hb.symm⟩

/-- The thresholds accumulated by the subject loop, described pointwise. -/
theorem buildSubjects_thrs (df : Frame) (jit : Jitter) :
    ∀ (subs : List Cell) (i0 : ℕ) (gs : List GroupVisual) (thrs : List ThresholdMark),
      buildSubjects df jit subs i0 = Except.ok (gs, thrs) →
      thrs = (subs.enumFrom i0).filterMap (fun p => thrPure df p.1 p.2)
  | [], _, gs, thrs, h => by
    unfold buildSubjects at h
    injection h with h
    injection h with _ h2
    simp [h2.symm]
  | sub :: rest, i0, gs, thrs, h => by
    obtain ⟨gl, thr, gs2, thrs2, h1, h2, _, hthrs⟩ :=
      buildSubjects_ok_cons_elim df jit sub rest i0 gs thrs h
    have hthr := buildSubject_ok_thr df jit i0 sub gl thr h1
    have ih := buildSubjects_thrs df jit rest (i0 + 1) gs2 thrs2 h2
    rw [hthrs, hthr, ih, List.enumFrom_cons]
    cases hp : thrPure df i0 sub with
    | none => simp [List.filterMap_cons, hp]
    | some t => simp [List.filterMap_cons, hp]

/-- Every subject of the loop has a succeeding iteration when the whole
loop succeeds. -/
theorem buildSubjects_ok_each (df : Frame) (jit : Jitter) :
    ∀ (subs : List Cell) (i0 : ℕ) (w : List GroupVisual × List ThresholdMark),
      buildSubjects df jit subs i0 = Except.ok w →
      ∀ p ∈ subs.enumFrom i0, ∃ w2, buildSubject df jit p.1 p.2 = Except.ok w2
  | [], _, w, _, p, hp => by cases hp
  | sub :: rest, i0, w, h, p, hp => by
    obtain ⟨gs, thrs⟩ := w
    obtain ⟨gl, thr, gs2, thrs2, h1, h2, _, _⟩ :=
      buildSubjects_ok_cons_elim df jit sub rest i0 gs thrs h
    rw [List.enumFrom_cons] at hp
    rcases List.mem_cons.mp hp with rfl | hp
    · exact ⟨(gl, thr), h1⟩
    · exact buildSubjects_ok_each df jit rest (i0 + 1) (gs2, thrs2) h2 p hp

/-- Every drawn group visual comes from a non-empty numeric group. -/
theorem buildSubjects_groups (df : Frame) (jit : Jitter) :
    ∀ (subs : List Cell) (i0 : ℕ) (gs : List GroupVisual) (thrs : List ThresholdMark),
      buildSubjects df jit subs i0 = Except.ok (gs, thrs) →
      ∀ g ∈ gs, ∃ i sub cat vs, (i, sub) ∈ subs.enumFrom i0 ∧
        cat_data df sub cat ≠ [] ∧ numsOf (cat_data df sub cat) = some vs ∧
        g = mkGV jit i cat vs
  | [], _, gs, thrs, h, g, hg => by
    unfold buildSubjects at h
    injection h with h
    injection h with h1 _
    rw [← h1] at hg
    cases hg
  | sub :: rest, i0, gs, thrs, h, g, hg => by
    obtain ⟨gl, thr, gs2, thrs2, h1, h2, hgs, _⟩ :=
      buildSubjects_ok_cons_elim df jit sub rest i0 gs thrs h
    rw [hgs] at hg
    rcases List.mem_append.mp hg with hg | hg
    · obtain ⟨gy, gn, hy, hn, hgl, _⟩ := buildSubject_ok_elim df jit i0 sub gl thr h1
      rw [hgl] at hg
      rcases List.mem_append.mp hg with hg | hg
      · cases gy with
        | none => cases hg
        | some a =>
          have hga : g = a := by simpa using hg
          obtain ⟨hne, vs, hvs, hag⟩ := (buildGroup_ok_some_iff df jit i0 sub Cat.yes a).mp hy
          refine ⟨i0, sub, Cat.yes, vs, ?_, hne, hvs, by rw [hga, hag]⟩
          rw [List.enumFrom_cons]
          exact List.mem_cons_self _ _
      · cases gn with
        | none => cases hg
        | some b =>
          have hgb : g = b := by simpa using hg
          obtain ⟨hne, vs, hvs, hbg⟩ := (buildGroup_ok_some_iff df jit i0 sub Cat.no b).mp hn
          refine ⟨i0, sub, Cat.no, vs, ?_, hne, hvs, by rw [hgb, hbg]⟩
          rw [List.enumFrom_cons]
          exact List.mem_cons_self _ _
    · obtain ⟨i, sub2, cat, vs, hmem, hne, hvs, hgeq⟩ :=
        buildSubjects_groups df jit rest (i0 + 1) gs2 thrs2 h2 g hg
      refine ⟨i, sub2, cat, vs, ?_, hne, hvs, hgeq⟩
      rw [List.enumFrom_cons]
      exact List.mem_cons_of_mem _ hmem

/-- Inversion of a successful invocation on a frame. -/
theorem create_ok_elim (df : Frame) (jit : Jitter) (ch : Chart)
    (h : create_hrv_plot (ReadCsvResult.frame df) jit = Outcome.saved ch) :
    required.find? (fun c => !((trimmedHeader df).contains c)) = none ∧
    ∃ gs thrs,
      buildSubjects df jit (uniqueFirst (subjectCol df)) 0 = Except.ok (gs, thrs) ∧
      ch = { groups := gs, thresholds := thrs,
             xticks := (uniqueFirst (subjectCol df)).enum, savedFile := output_png } := by
  simp only [create_hrv_plot] at h
  cases hf : required.find? (fun c => !((trimmedHeader df).contains c)) with
  | some c => rw [hf] at h; cases h
  | none =>
    rw [hf] at h
    cases hb : buildSubjects df jit (uniqueFirst (subjectCol df)) 0 with
    | error e => rw [hb] at h; cases h
    | ok w =>
      obtain ⟨gs, thrs⟩ := w
      rw [hb] at h
      injection h with h
      exact ⟨rfl, gs, thrs, rfl, h.symm⟩

/-- Where the cells of a group come from: rows of the frame whose subject
and category cells match. -/
theorem cat_data_cells (df : Frame) (sub : Cell) (cat : Cat) (c : Cell)
    (hc : c ∈ cat_data df sub cat) :
    ∃ r ∈ df.rows, cellAt df r "Subject" = sub ∧
      cellAt df r "Stress or not" = Cell.str (Cat.label cat) ∧
      c = cellAt df r "HRV (ms)" := by
  unfold cat_data groupRows at hc
  obtain ⟨r, hr, hcr⟩ := List.mem_map.mp hc
  obtain ⟨hrow, hpred⟩ := List.mem_filter.mp hr
  unfold rowInGroup at hpred
  simp only [Bool.and_eq_true, decide_eq_true_eq] at hpred
  exact ⟨r, hrow, hpred.1, hpred.2, hcr.symm⟩

/-- The subject loop succeeds when every non-empty group is numeric. -/
theorem buildSubjects_total (df : Frame) (jit : Jitter)
    (hnum : ∀ sub cat, cat_data df sub cat ≠ [] →
      ∃ vs, numsOf (cat_data df sub cat) = some vs) :
    ∀ (subs : List Cell) (i0 : ℕ), ∃ w, buildSubjects df jit subs i0 = Except.ok w
  | [], i0 => ⟨([], []), rfl⟩
  | sub :: rest, i0 => by
    have hy : ∃ gy, buildGroup df jit i0 sub Cat.yes = Except.ok gy := by
      unfold buildGroup
      by_cases h : cat_data df sub Cat.yes = []
      · exact ⟨none, by rw [if_pos h]⟩
      · obtain ⟨vs, hvs⟩ := hnum sub Cat.yes h
        exact ⟨some (mkGV jit i0 Cat.yes vs), by rw [if_neg h, hvs]⟩
    have hn : ∃ gn, buildGroup df jit i0 sub Cat.no = Except.ok gn := by
      unfold buildGroup
      by_cases h : cat_data df sub Cat.no = []
      · exact ⟨none, by rw [if_pos h]⟩
      · obtain ⟨vs, hvs⟩ := hnum sub Cat.no h
        exact ⟨some (mkGV jit i0 Cat.no vs), by rw [if_neg h, hvs]⟩
    obtain ⟨gy, hgy⟩ := hy
    obtain ⟨gn, hgn⟩ := hn
    obtain ⟨⟨gs2, thrs2⟩, hrest⟩ := buildSubjects_total df jit hnum rest (i0 + 1)
    have hsub : ∃ w1, buildSubject df jit i0 sub = Except.ok w1 := by
      refine ⟨(gy.toList ++ gn.toList, thrOf i0 gy gn), ?_⟩
      unfold buildSubject
      rw [hgy, hgn]
    obtain ⟨⟨gl, thr⟩, hw1⟩ := hsub
    exact ⟨(gl ++ gs2, thr.toList ++ thrs2), by unfold buildSubjects; rw [hw1, hrest]⟩

/-! ### The jitter-erased view of a chart -/

/-- Replace each scatter point's horizontal position by the group's
unjittered position, leaving everything else untouched. -/
def stripGV (g : GroupVisual) : GroupVisual :=
  { g with scatter := g.scatter.map (fun p => (g.xPos, p.2)) }

/-- The chart with all jitter removed. -/
def stripJitter (c : Chart) : Chart := { c with groups := c.groups.map stripGV }

/-- The outcome with all jitter removed from a saved chart. -/
def stripOutcome : Outcome → Outcome
  | Outcome.saved c => Outcome.saved (stripJitter c)
  | o => o

theorem exmap_ok {ε α β : Type} (f : α → β) (x : α) :
    Except.map f (Except.ok (ε := ε) x) = Except.ok (f x) := rfl

theorem exmap_error {ε α β : Type} (f : α → β) (e : ε) :
    Except.map (β := β) f (Except.error e) = Except.error e := rfl

theorem enum_map_const_pair {α β : Type} (x : β) (vs : List α) :
    (vs.enum).map (fun q => (x, q.2)) = vs.map (fun v => (x, v)) := by
  calc (vs.enum).map (fun q => (x, q.2))
      = (vs.enum).map ((fun v => (x, v)) ∘ Prod.snd) := rfl
    _ = ((vs.enum).map Prod.snd).map (fun v => (x, v)) := by rw [List.map_map]
    _ = vs.map (fun v => (x, v)) := by
        rw [show vs.enum = vs.enumFrom 0 from rfl, List.enumFrom_map_snd]

theorem stripGV_mkGV (jit : Jitter) (i : ℕ) (cat : Cat) (vs : List ℚ) :
    stripGV (mkGV jit i cat vs) =
      { subjectIdx := i, category := cat, xPos := xPosOf i cat, boxData := vs,
        med := median vs, avg := mean vs,
        scatter := vs.map (fun v => (xPosOf i cat, v)) } := by
  unfold stripGV mkGV
  simp only [List.map_map]
  congr 1
  rw [show ((fun p : ℚ × ℚ => (xPosOf i cat, p.2)) ∘
      (fun q : ℕ × ℚ => (xPosOf i cat + jit i cat q.1, q.2))) =
      (fun q : ℕ × ℚ => (xPosOf i cat, q.2)) from rfl]
  exact enum_map_const_pair (xPosOf i cat) vs

theorem stripGV_med (g : GroupVisual) : (stripGV g).med = g.med := rfl

theorem buildGroup_strip (df : Frame) (j1 j2 : Jitter) (i : ℕ) (sub : Cell)
    (cat : Cat) :
    (buildGroup df j1 i sub cat).map (Option.map stripGV) =
    (buildGroup df j2 i sub cat).map (Option.map stripGV) := by
  unfold buildGroup
  by_cases h : cat_data df sub cat = []
  · simp only [if_pos h]
  · simp only [if_neg h]
    cases hn : numsOf (cat_data df sub cat) with
    | none => rfl
    | some vs =>
      rw [exmap_ok, exmap_ok]
      simp only [Option.map_some']
      rw [stripGV_mkGV, stripGV_mkGV]

theorem toList_map_stripGV (o : Option GroupVisual) :
    o.toList.map stripGV = (o.map stripGV).toList := by
  cases o <;> rfl

/-- The per-subject threshold/groups pair, jitter erased. -/
def stripPair (w : List GroupVisual × Option ThresholdMark) :
    List GroupVisual × Option ThresholdMark := (w.1.map stripGV, w.2)

theorem thrOf_strip (i : ℕ) :
    ∀ gy1 gy2 gn1 gn2 : Option GroupVisual,
      Option.map stripGV gy1 = Option.map stripGV gy2 →
      Option.map stripGV gn1 = Option.map stripGV gn2 →
      thrOf i gy1 gn1 = thrOf i gy2 gn2
  | none, none, gn1, gn2, _, _ => by cases gn1 <;> cases gn2 <;> rfl
  | none, some a2, _, _, hyy, _ => by simp at hyy
  | some a1, none, _, _, hyy, _ => by simp at hyy
  | some a1, some a2, none, none, _, _ => rfl
  | some a1, some a2, none, some b2, _, hnn => by simp at hnn
  | some a1, some a2, some b1, none, _, hnn => by simp at hnn
  | some a1, some a2, some b1, some b2, hyy, hnn => by
    simp only [Option.map_some'] at hyy hnn
    injection hyy with hyy
    injection hnn with hnn
    have ha : a1.med = a2.med := by rw [← stripGV_med a1, hyy, stripGV_med]
    have hb : b1.med = b2.med := by rw [← stripGV_med b1, hnn, stripGV_med]
    show some (⟨i, (i : ℚ), (a1.med + b1.med) / 2⟩ : ThresholdMark) =
      some ⟨i, (i : ℚ), (a2.med + b2.med) / 2⟩
    rw [ha, hb]

theorem buildSubject_strip (df : Frame) (j1 j2 : Jitter) (i : ℕ) (sub : Cell) :
    (buildSubject df j1 i sub).map stripPair =
    (buildSubject df j2 i sub).map stripPair := by
  have hy := buildGroup_strip df j1 j2 i sub Cat.yes
  have hn := buildGroup_strip df j1 j2 i sub Cat.no
  unfold buildSubject
  cases hy1 : buildGroup df j1 i sub Cat.yes with
  | error e =>
    cases hy2 : buildGroup df j2 i sub Cat.yes with
    | error e2 => rfl
    | ok gy2 =>
      rw [hy1, hy2, exmap_error, exmap_ok] at hy
      exact Except.noConfusion hy
  | ok gy1 =>
    cases hy2 : buildGroup df j2 i sub Cat.yes with
    | error e2 =>
      rw [hy1, hy2, exmap_ok, exmap_error] at hy
      exact Except.noConfusion hy
    | ok gy2 =>
      rw [hy1, hy2, exmap_ok, exmap_ok] at hy
      injection hy with hyy
      cases hn1 : buildGroup df j1 i sub Cat.no with
      | error e =>
        cases hn2 : buildGroup df j2 i sub Cat.no with
        | error e2 => rfl
        | ok gn2 =>
          rw [hn1, hn2, exmap_error, exmap_ok] at hn
          exact Except.noConfusion hn
      | ok gn1 =>
        cases hn2 : buildGroup df j2 i sub Cat.no with
        | error e2 =>
          rw [hn1, hn2, exmap_ok, exmap_error] at hn
          exact Except.noConfusion hn
        | ok gn2 =>
          rw [hn1, hn2, exmap_ok, exmap_ok] at hn
          injection hn with hnn
          rw [exmap_ok, exmap_ok]
          simp only [stripPair]
          have hgl : (gy1.toList ++ gn1.toList).map stripGV =
              (gy2.toList ++ gn2.toList).map stripGV := by
            rw [List.map_append, List.map_append, toList_map_stripGV,
              toList_map_stripGV, toList_map_stripGV, toList_map_stripGV, hyy, hnn]
          rw [hgl, thrOf_strip i gy1 gy2 gn1 gn2 hyy hnn]

/-- The accumulated loop state, jitter erased. -/
def stripAcc (w : List GroupVisual × List ThresholdMark) :
    List GroupVisual × List ThresholdMark := (w.1.map stripGV, w.2)

theorem buildSubjects_strip (df : Frame) (j1 j2 : Jitter) :
    ∀ (subs : List Cell) (i0 : ℕ),
      (buildSubjects df j1 subs i0).map stripAcc =
      (buildSubjects df j2 subs i0).map stripAcc
  | [], _ => rfl
  | sub :: rest, i0 => by
    have h1 := buildSubject_strip df j1 j2 i0 sub
    have ih := buildSubjects_strip df j1 j2 rest (i0 + 1)
    unfold buildSubjects
    cases ha1 : buildSubject df j1 i0 sub with
    | error e =>
      cases ha2 : buildSubject df j2 i0 sub with
      | error e2 => rfl
      | ok w2 =>
        rw [ha1, ha2, exmap_error, exmap_ok] at h1
        exact Except.noConfusion h1
    | ok w1 =>
      cases ha2 : buildSubject df j2 i0 sub with
      | error e2 =>
        rw [ha1, ha2, exmap_ok, exmap_error] at h1
        exact Except.noConfusion h1
      | ok w2 =>
        rw [ha1, ha2, exmap_ok, exmap_ok] at h1
        injection h1 with h1
        obtain ⟨gl1, thr1⟩ := w1
        obtain ⟨gl2, thr2⟩ := w2
        simp only [stripPair, Prod.mk.injEq] at h1
        cases hb1 : buildSubjects df j1 rest (i0 + 1) with
        | error e =>
          cases hb2 : buildSubjects df j2 rest (i0 + 1) with
          | error e2 => rfl
          | ok v2 =>
            rw [hb1, hb2, exmap_error, exmap_ok] at ih
            exact Except.noConfusion ih
        | ok v1 =>
          cases hb2 : buildSubjects df j2 rest (i0 + 1) with
          | error e2 =>
            rw [hb1, hb2, exmap_ok, exmap_error] at ih
            exact Except.noConfusion ih
          | ok v2 =>
            rw [hb1, hb2, exmap_ok, exmap_ok] at ih
            injection ih with ih
            obtain ⟨gs1, thrs1⟩ := v1
            obtain ⟨gs2, thrs2⟩ := v2
            simp only [stripAcc, Prod.mk.injEq] at ih
            rw [exmap_ok, exmap_ok]
            simp only [stripAcc, List.map_append]
            rw [h1.1, h1.2, ih.1, ih.2]

/-- The whole invocation, jitter erased, does not depend on the draws. -/
theorem create_strip (input : ReadCsvResult) (j1 j2 : Jitter) :
    stripOutcome (create_hrv_plot input j1) =
    stripOutcome (create_hrv_plot input j2) := by
  cases input with
  | fileNotFound => rfl
  | unreadableOther => rfl
  | parseError => rfl
  | frame df =>
    simp only [create_hrv_plot]
    cases hf : required.find? (fun c => !((trimmedHeader df).contains c)) with
    | some c => rfl
    | none =>
      have hb := buildSubjects_strip df j1 j2 (uniqueFirst (subjectCol df)) 0
      cases hb1 : buildSubjects df j1 (uniqueFirst (subjectCol df)) 0 with
      | error e =>
        cases hb2 : buildSubjects df j2 (uniqueFirst (subjectCol df)) 0 with
        | error e2 => rfl
        | ok w2 =>
          rw [hb1, hb2, exmap_error, exmap_ok] at hb
          exact Except.noConfusion hb
      | ok w1 =>
        cases hb2 : buildSubjects df j2 (uniqueFirst (subjectCol df)) 0 with
        | error e2 =>
          rw [hb1, hb2, exmap_ok, exmap_error] at hb
          exact Except.noConfusion hb
        | ok w2 =>
          rw [hb1, hb2, exmap_ok, exmap_ok] at hb
          injection hb with hb
          obtain ⟨gs1, thrs1⟩ := w1
          obtain ⟨gs2, thrs2⟩ := w2
          simp only [stripAcc, Prod.mk.injEq] at hb
          simp only [stripOutcome, stripJitter]
          rw [hb.1, hb.2]

theorem contains_false_iff (l : List String) (c : String) :
    (!(l.contains c)) = true ↔ c ∉ l := by
  simp [List.contains_eq_any_beq]

theorem missing_find (df : Frame) :
    required.find? (fun c => !((trimmedHeader df).contains c)) =
      (missingCols df).head? :=
  find?_eq_head?_filter _ required

/-! ### Claim theorems -/

/-- C2. For any input table missing at least one of the three required
columns (after stripping surrounding whitespace from every header name),
`create_hrv_plot` reports a schema error naming a missing required column
together with the stripped column list actually found, stops with that
outcome, and writes no output image file. -/
theorem schema_error_spec (df : Frame) (jit : Jitter)
    (h : ∃ c ∈ required, c ∉ trimmedHeader df) :
    ∃ c, c ∈ required ∧ c ∉ trimmedHeader df ∧
      create_hrv_plot (ReadCsvResult.frame df) jit =
        Outcome.schemaError c (trimmedHeader df) ∧
      filesWritten (create_hrv_plot (ReadCsvResult.frame df) jit) = [] := by
  obtain ⟨c0, hc0, hc0n⟩ := h
  have hne : missingCols df ≠ [] := by
    intro hemp
    have hmem : c0 ∈ missingCols df :=
      List.mem_filter.mpr ⟨hc0, (contains_false_iff _ _).mpr hc0n⟩
    rw [hemp] at hmem
    cases hmem
  obtain ⟨c, rest, hcr⟩ := List.exists_cons_of_ne_nil hne
  have hfind : required.find? (fun c => !((trimmedHeader df).contains c)) = some c := by
    rw [missing_find, hcr]
    rfl
  have hmem : c ∈ missingCols df := by
    rw [hcr]
    exact List.mem_cons_self _ _
  obtain ⟨hcreq, hcnb⟩ := List.mem_filter.mp hmem
  refine ⟨c, hcreq, (contains_false_iff _ _).mp hcnb, ?_, ?_⟩
  · simp only [create_hrv_plot]
    rw [hfind]
  · simp only [create_hrv_plot]
    rw [hfind]
    rfl

/-- C2 witness: a concrete frame whose stripped header lacks `HRV (ms)`. -/
theorem schema_error_spec_witness :
    ∃ c, c ∈ required ∧ c ∉ trimmedHeader ⟨["Subject", "HRV", "Stress or not"], []⟩ ∧
      create_hrv_plot (ReadCsvResult.frame ⟨["Subject", "HRV", "Stress or not"], []⟩) jit0 =
        Outcome.schemaError c (trimmedHeader ⟨["Subject", "HRV", "Stress or not"], []⟩) ∧
      filesWritten
        (create_hrv_plot (ReadCsvResult.frame ⟨["Subject", "HRV", "Stress or not"], []⟩) jit0) =
        [] :=
  schema_error_spec ⟨["Subject", "HRV", "Stress or not"], []⟩ jit0
    ⟨"HRV (ms)", by decide, by decide⟩

/-- C10. When several required columns are missing, the schema error names
exactly the first missing column in the fixed check order
`["Subject", "HRV (ms)", "Stress or not"]`, the function returns at once
with that single report, and no image is written. -/
theorem first_missing_reported (df : Frame) (jit : Jitter)
    (h : missingCols df ≠ []) :
    create_hrv_plot (ReadCsvResult.frame df) jit =
      Outcome.schemaError ((missingCols df).headD "") (trimmedHeader df) ∧
    filesWritten (create_hrv_plot (ReadCsvResult.frame df) jit) = [] := by
  obtain ⟨c, rest, hcr⟩ := List.exists_cons_of_ne_nil h
  have hfind : required.find? (fun c => !((trimmedHeader df).contains c)) = some c := by
    rw [missing_find, hcr]
    rfl
  constructor
  · simp only [create_hrv_plot]
    rw [hfind, hcr]
    rfl
  · simp only [create_hrv_plot]
    rw [hfind]
    rfl

/-- C10 witness: a frame missing both `Subject` and `HRV (ms)`: the
report names `Subject`, the first in check order. -/
theorem first_missing_reported_witness :
    create_hrv_plot (ReadCsvResult.frame ⟨["Stress or not"], []⟩) jit0 =
      Outcome.schemaError ((missingCols ⟨["Stress or not"], []⟩).headD "")
        (trimmedHeader ⟨["Stress or not"], []⟩) ∧
    filesWritten (create_hrv_plot (ReadCsvResult.frame ⟨["Stress or not"], []⟩) jit0) = [] :=
  first_missing_reported ⟨["Stress or not"], []⟩ jit0 (by decide)

/-- C3 (amended). For a nonexistent input path (`FileNotFoundError`),
`create_hrv_plot` reports `InputNotFound` and returns with no output file;
for a path that exists but is not a readable table file (for example a
permission failure), the exception is not caught — the run ends with an
uncaught exception and still writes no output file. -/
theorem input_not_found_spec (jit : Jitter) :
    create_hrv_plot ReadCsvResult.fileNotFound jit = Outcome.inputNotFound ∧
    filesWritten (create_hrv_plot ReadCsvResult.fileNotFound jit) = [] ∧
    create_hrv_plot ReadCsvResult.unreadableOther jit = Outcome.raised ∧
    filesWritten (create_hrv_plot ReadCsvResult.unreadableOther jit) = [] :=
  ⟨rfl, rfl, rfl, rfl⟩

/-- C3 counterexample: an existing but unreadable path is a path that does
not resolve to a readable file, yet the outcome is an uncaught exception,
not the `InputNotFound` report the claim requires. -/
theorem input_unreadable_counterexample :
    create_hrv_plot ReadCsvResult.unreadableOther jit0 ≠ Outcome.inputNotFound ∧
    create_hrv_plot ReadCsvResult.unreadableOther jit0 = Outcome.raised ∧
    filesWritten (create_hrv_plot ReadCsvResult.unreadableOther jit0) = [] :=
  ⟨by decide, rfl, rfl⟩

/-- C4. An input file that opens but fails to parse as a delimited table
(malformed rows, encoding errors) ends the run with a reported error — the
uncaught exception's traceback — never silently, and no chart image is
written. -/
theorem parse_failure_reported (jit : Jitter) :
    producesErrorReport (create_hrv_plot ReadCsvResult.parseError jit) = true ∧
    create_hrv_plot ReadCsvResult.parseError jit = Outcome.raised ∧
    filesWritten (create_hrv_plot ReadCsvResult.parseError jit) = [] :=
  ⟨rfl, rfl, rfl⟩

/-- C6. For every non-empty group the median follows the standard
definition — some sorted rearrangement of the values has the median as the
average of its two middle entries when the count is even — and the mean is
the arithmetic mean; for the values `[40, 42, 44, 46]` the median is `43`
and the mean is `43`. -/
theorem median_mean_spec :
    (∀ vs : List ℚ, vs ≠ [] → vs.length % 2 = 0 →
      ∃ s : List ℚ, vs.Perm s ∧ s.Sorted (· ≤ ·) ∧
        median vs = (s.getD (vs.length / 2 - 1) 0 + s.getD (vs.length / 2) 0) / 2) ∧
    (∀ vs : List ℚ, mean vs = vs.sum / vs.length) ∧
    median [40, 42, 44, 46] = 43 ∧ mean [40, 42, 44, 46] = 43 := by
  refine ⟨?_, fun vs => rfl, ?_, ?_⟩
  · intro vs hne heven
    refine ⟨List.insertionSort (· ≤ ·) vs,
      (List.perm_insertionSort _ vs).symm, List.sorted_insertionSort _ vs, ?_⟩
    unfold median
    rw [if_neg (by omega)]
  · with_unfolding_all decide
  · with_unfolding_all decide

/-- C6 witness: the even-count clause applied at `[3, 1]`. -/
theorem median_mean_spec_witness :
    ∃ s : List ℚ, List.Perm [3, 1] s ∧ s.Sorted (· ≤ ·) ∧
      median [3, 1] = (s.getD 0 0 + s.getD 1 0) / 2 :=
  median_mean_spec.1 [3, 1] (by decide) (by decide)

/-- C5. The x-axis ticks of a saved chart are exactly the subjects in
first-appearance order, one tick per distinct subject labeled with the
subject value: the tick list is the enumeration of `uniqueFirst` of the
`Subject` column, which contains exactly the column's values, without
duplicates, ordered by strictly increasing first-occurrence index; for
subjects seen in order `[B, A, B, C, A]` the axis order is `[B, A, C]`. -/
theorem subject_order_spec (df : Frame) (jit : Jitter) (ch : Chart)
    (h : create_hrv_plot (ReadCsvResult.frame df) jit = Outcome.saved ch) :
    ch.xticks = (uniqueFirst (subjectCol df)).enum ∧
    (∀ x, x ∈ uniqueFirst (subjectCol df) ↔ x ∈ subjectCol df) ∧
    (uniqueFirst (subjectCol df)).Nodup ∧
    (uniqueFirst (subjectCol df)).Pairwise
      (fun a b => (subjectCol df).indexOf a < (subjectCol df).indexOf b) ∧
    uniqueFirst [Cell.str "B", Cell.str "A", Cell.str "B", Cell.str "C", Cell.str "A"] =
      [Cell.str "B", Cell.str "A", Cell.str "C"] := by
  obtain ⟨-, gs, thrs, -, hch⟩ := create_ok_elim df jit ch h
  exact ⟨by rw [hch], mem_uniqueFirst _, nodup_uniqueFirst _,
    pairwise_indexOf_uniqueFirst _, by decide⟩

/-- Concrete frame with subjects in order `B, A, B, C, A`. -/
def dfC5 : Frame :=
  { header := ["Subject", "HRV (ms)", "Stress or not"]
    rows := [ [Cell.str "B", Cell.num 10, Cell.str "Yes"]
            , [Cell.str "A", Cell.num 20, Cell.str "Yes"]
            , [Cell.str "B", Cell.num 30, Cell.str "No"]
            , [Cell.str "C", Cell.num 40, Cell.str "Yes"]
            , [Cell.str "A", Cell.num 50, Cell.str "No"] ] }

/-- C5 witness: the theorem applied to `dfC5`. -/
theorem subject_order_spec_witness :
    (chartOf (ReadCsvResult.frame dfC5) jit0).xticks =
      (uniqueFirst (subjectCol dfC5)).enum ∧
    (∀ x, x ∈ uniqueFirst (subjectCol dfC5) ↔ x ∈ subjectCol dfC5) ∧
    (uniqueFirst (subjectCol dfC5)).Nodup ∧
    (uniqueFirst (subjectCol dfC5)).Pairwise
      (fun a b => (subjectCol dfC5).indexOf a < (subjectCol dfC5).indexOf b) ∧
    uniqueFirst [Cell.str "B", Cell.str "A", Cell.str "B", Cell.str "C", Cell.str "A"] =
      [Cell.str "B", Cell.str "A", Cell.str "C"] :=
  subject_order_spec dfC5 jit0 (chartOf (ReadCsvResult.frame dfC5) jit0)
    (by with_unfolding_all decide)

/-! ### Threshold marker lemmas and claim C1 -/

theorem thrPure_some_elim (df : Frame) (i : ℕ) (sub : Cell) (t : ThresholdMark)
    (h : thrPure df i sub = some t) :
    t.subjectIdx = i ∧ t.x = (i : ℚ) ∧
    cat_data df sub Cat.yes ≠ [] ∧ cat_data df sub Cat.no ≠ [] ∧
    ∃ a b, seriesMedian (cat_data df sub Cat.yes) = some a ∧
      seriesMedian (cat_data df sub Cat.no) = some b ∧ t.y = (a + b) / 2 := by
  unfold thrPure at h
  by_cases hcond : cat_data df sub Cat.yes ≠ [] ∧ cat_data df sub Cat.no ≠ []
  · rw [if_pos hcond] at h
    cases hy : seriesMedian (cat_data df sub Cat.yes) with
    | none => rw [hy] at h; cases h
    | some a =>
      rw [hy] at h
      cases hn : seriesMedian (cat_data df sub Cat.no) with
      | none => rw [hn] at h; cases h
      | some b =>
        rw [hn] at h
        injection h with h
        rw [← h]
        exact ⟨rfl, rfl, hcond.1, hcond.2, a, b, rfl, rfl, rfl⟩
  · rw [if_neg hcond] at h
    cases h

theorem thrPure_isSome_of (df : Frame) (i : ℕ) (sub : Cell)
    (hy : cat_data df sub Cat.yes ≠ []) (hn : cat_data df sub Cat.no ≠ [])
    (hys : ∃ a, seriesMedian (cat_data df sub Cat.yes) = some a)
    (hns : ∃ b, seriesMedian (cat_data df sub Cat.no) = some b) :
    ∃ t, thrPure df i sub = some t := by
  obtain ⟨a, ha⟩ := hys
  obtain ⟨b, hb⟩ := hns
  refine ⟨⟨i, (i : ℚ), (a + b) / 2⟩, ?_⟩
  unfold thrPure
  rw [if_pos ⟨hy, hn⟩, ha, hb]

theorem enum_fst_inj {α : Type} (l : List α) (p q : ℕ × α)
    (hp : p ∈ l.enum) (hq : q ∈ l.enum) (h : p.1 = q.1) : p.2 = q.2 := by
  rw [List.mem_enum_iff_getElem?] at hp hq
  rw [h] at hp
  rw [hp] at hq
  injection hq

/-- C1. For every subject on the axis of a saved chart, a threshold marker
for that subject exists if and only if both category groups of that
subject are non-empty; every such marker sits at the subject's base
horizontal position (the bare index, no offset) and its vertical value is
the arithmetic midpoint of the two group medians. -/
theorem threshold_marker_spec (df : Frame) (jit : Jitter) (ch : Chart)
    (h : create_hrv_plot (ReadCsvResult.frame df) jit = Outcome.saved ch) :
    ∀ p ∈ ch.xticks,
      ((∃ t ∈ ch.thresholds, t.subjectIdx = p.1) ↔
        (cat_data df p.2 Cat.yes ≠ [] ∧ cat_data df p.2 Cat.no ≠ [])) ∧
      (∀ t ∈ ch.thresholds, t.subjectIdx = p.1 →
        t.x = (p.1 : ℚ) ∧
        ∃ a b, seriesMedian (cat_data df p.2 Cat.yes) = some a ∧
          seriesMedian (cat_data df p.2 Cat.no) = some b ∧ t.y = (a + b) / 2) := by
  obtain ⟨-, gs, thrs, hbs, hch⟩ := create_ok_elim df jit ch h
  have hthrs := buildSubjects_thrs df jit (uniqueFirst (subjectCol df)) 0 gs thrs hbs
  have hxt : ch.xticks = (uniqueFirst (subjectCol df)).enum := by rw [hch]
  have hth : ch.thresholds = thrs := by rw [hch]
  intro p hp
  have hpe : p ∈ (uniqueFirst (subjectCol df)).enum := by rw [← hxt]; exact hp
  constructor
  · constructor
    · rintro ⟨t, ht, hti⟩
      rw [hth, hthrs] at ht
      obtain ⟨q, hq, hqt⟩ := List.mem_filterMap.mp ht
      obtain ⟨hsubq, -, hyq, hnq, -⟩ := thrPure_some_elim df q.1 q.2 t hqt
      have hq1 : p.1 = q.1 := by rw [← hti, hsubq]
      have hpq : p.2 = q.2 := enum_fst_inj _ p q hpe hq hq1
      rw [hpq]
      exact ⟨hyq, hnq⟩
    · rintro ⟨hy, hn⟩
      obtain ⟨w2, hw2⟩ := buildSubjects_ok_each df jit _ 0 (gs, thrs) hbs p hpe
      obtain ⟨vsy, hvy⟩ := buildSubject_ok_numeric df jit p.1 p.2 w2 hw2 Cat.yes hy
      obtain ⟨vsn, hvn⟩ := buildSubject_ok_numeric df jit p.1 p.2 w2 hw2 Cat.no hn
      obtain ⟨t, hthp⟩ := thrPure_isSome_of df p.1 p.2 hy hn
        ⟨median vsy, by unfold seriesMedian; rw [hvy]; rfl⟩
        ⟨median vsn, by unfold seriesMedian; rw [hvn]; rfl⟩
      refine ⟨t, ?_, (thrPure_some_elim df p.1 p.2 t hthp).1⟩
      rw [hth, hthrs]
      exact List.mem_filterMap.mpr ⟨p, hpe, hthp⟩
  · intro t ht hti
    rw [hth, hthrs] at ht
    obtain ⟨q, hq, hqt⟩ := List.mem_filterMap.mp ht
    obtain ⟨hsubq, hxq, -, -, a, b, ha, hb, hyq⟩ := thrPure_some_elim df q.1 q.2 t hqt
    have hq1 : p.1 = q.1 := by rw [← hti, hsubq]
    have hpq : p.2 = q.2 := enum_fst_inj _ p q hpe hq hq1
    rw [hpq, hq1]
    exact ⟨hxq, a, b, ha, hb, hyq⟩

/-- Concrete frame: subject `X` has only `Yes` rows, subject `Y` has both
categories with medians `50` and `70`. -/
def dfC1 : Frame :=
  { header := ["Subject", "HRV (ms)", "Stress or not"]
    rows := [ [Cell.str "X", Cell.num 45, Cell.str "Yes"]
            , [Cell.str "Y", Cell.num 50, Cell.str "Yes"]
            , [Cell.str "Y", Cell.num 70, Cell.str "No"] ] }

/-- C1 witness: the theorem applied to `dfC1` at the tick of subject `Y`
(index 1, both groups present with medians 50 and 70). -/
theorem threshold_marker_spec_witness :
    ((∃ t ∈ (chartOf (ReadCsvResult.frame dfC1) jit0).thresholds, t.subjectIdx = 1) ↔
      (cat_data dfC1 (Cell.str "Y") Cat.yes ≠ [] ∧
        cat_data dfC1 (Cell.str "Y") Cat.no ≠ [])) ∧
    (∀ t ∈ (chartOf (ReadCsvResult.frame dfC1) jit0).thresholds, t.subjectIdx = 1 →
      t.x = ((1 : ℕ) : ℚ) ∧
      ∃ a b, seriesMedian (cat_data dfC1 (Cell.str "Y") Cat.yes) = some a ∧
        seriesMedian (cat_data dfC1 (Cell.str "Y") Cat.no) = some b ∧
        t.y = (a + b) / 2) :=
  threshold_marker_spec dfC1 jit0 (chartOf (ReadCsvResult.frame dfC1) jit0)
    (by with_unfolding_all decide) (1, Cell.str "Y") (by with_unfolding_all decide)

/-! ### Claims C7, C8, C9 -/

/-- Concrete frame passing schema validation whose `HRV (ms)` value is the
string `abc` — not a number and not one of pandas' NA sentinels, so
`pd.read_csv` keeps the column at object dtype with the string intact and
`cat_data.median()` raises on it. -/
def dfBadHRV : Frame :=
  { header := ["Subject", "HRV (ms)", "Stress or not"]
    rows := [[Cell.str "A", Cell.str "abc", Cell.str "Yes"]] }

/-- C7 counterexample: load and schema validation succeed on `dfBadHRV`
(the CSV row `A,abc,Yes`), yet the run does not complete — `abc` is no
pandas NA sentinel, so the `Yes` group is non-empty with a string cell and
`cat_data.median()` raises an uncaught exception — and no image file is
written, contradicting "the render always completes and exactly one image
file is always written, for every input". -/
theorem render_crash_counterexample :
    missingCols dfBadHRV = [] ∧
    create_hrv_plot (ReadCsvResult.frame dfBadHRV) jit0 = Outcome.raised ∧
    filesWritten (create_hrv_plot (ReadCsvResult.frame dfBadHRV) jit0) = [] := by
  with_unfolding_all decide

/-- C7 (amended). Once load and schema validation succeed, if every
measurement cell of the `HRV (ms)` column is numeric (no token that fails
to parse as a number while also not being a pandas NA sentinel), the
render always completes and exactly one image file is written; empty
(subject, category) groups are skipped without any error, and every drawn
group is non-empty. -/
theorem render_total_on_numeric (df : Frame) (jit : Jitter)
    (hschema : missingCols df = [])
    (hnum : ∀ r ∈ df.rows, (cellNum? (cellAt df r "HRV (ms)")).isSome) :
    ∃ ch, create_hrv_plot (ReadCsvResult.frame df) jit = Outcome.saved ch ∧
      filesWritten (create_hrv_plot (ReadCsvResult.frame df) jit) = [ch.savedFile] ∧
      ch.savedFile = output_png ∧
      ∀ g ∈ ch.groups, g.boxData ≠ [] := by
  have hfind : required.find? (fun c => !((trimmedHeader df).contains c)) = none := by
    rw [missing_find, hschema]
    rfl
  have hnum2 : ∀ sub cat, cat_data df sub cat ≠ [] →
      ∃ vs, numsOf (cat_data df sub cat) = some vs := by
    intro sub cat _
    apply numsOf_isSome
    intro c hc
    obtain ⟨r, hr, -, -, hceq⟩ := cat_data_cells df sub cat c hc
    rw [hceq]
    exact hnum r hr
  obtain ⟨⟨gs, thrs⟩, hbs⟩ :=
    buildSubjects_total df jit hnum2 (uniqueFirst (subjectCol df)) 0
  refine ⟨Chart.mk gs thrs (uniqueFirst (subjectCol df)).enum output_png,
    ?_, ?_, rfl, ?_⟩
  · simp only [create_hrv_plot]
    rw [hfind, hbs]
  · simp only [create_hrv_plot]
    rw [hfind, hbs]
    rfl
  · intro g hg
    obtain ⟨i, sub, cat, vs, -, hne, hvs, hgeq⟩ :=
      buildSubjects_groups df jit _ 0 gs thrs hbs g hg
    rw [hgeq]
    show vs ≠ []
    exact numsOf_ne_nil _ vs hvs hne

/-- C7 witness: the amended theorem applied to the all-numeric `dfC1`. -/
theorem render_total_on_numeric_witness :
    ∃ ch, create_hrv_plot (ReadCsvResult.frame dfC1) jit0 = Outcome.saved ch ∧
      filesWritten (create_hrv_plot (ReadCsvResult.frame dfC1) jit0) = [ch.savedFile] ∧
      ch.savedFile = output_png ∧
      ∀ g ∈ ch.groups, g.boxData ≠ [] :=
  render_total_on_numeric dfC1 jit0 (by with_unfolding_all decide)
    (by with_unfolding_all decide)

/-- C8. The jitter draws never change anything but the horizontal
positions of the scatter points: erasing the jitter gives the same outcome
for any two draw streams (so medians, means, box data, thresholds, ticks
and the output file are identical across runs); when every draw has
magnitude at most `jitterBound` — the support bound of
`np.random.uniform(-0.04, 0.04)`, which is one fifth of the `offset`
spacing — every scatter point sits within `jitterBound` of its group's
unjittered position, at the exact measurement value vertically. -/
theorem jitter_independence_spec (input : ReadCsvResult) (j1 j2 : Jitter)
    (hb : ∀ i cat k, |j1 i cat k| ≤ jitterBound) :
    stripOutcome (create_hrv_plot input j1) =
      stripOutcome (create_hrv_plot input j2) ∧
    jitterBound = offset / 5 ∧
    ∀ ch, create_hrv_plot input j1 = Outcome.saved ch →
      ∀ g ∈ ch.groups, ∀ p ∈ g.scatter,
        |p.1 - g.xPos| ≤ jitterBound ∧ p.2 ∈ g.boxData := by
  refine ⟨create_strip input j1 j2, by norm_num [jitterBound, offset], ?_⟩
  intro ch hch g hg p hp
  cases input with
  | fileNotFound => cases hch
  | unreadableOther => cases hch
  | parseError => cases hch
  | frame df =>
    obtain ⟨-, gs, thrs, hbs, hcheq⟩ := create_ok_elim df j1 ch hch
    have hg' : g ∈ gs := by
      rw [hcheq] at hg
      exact hg
    obtain ⟨i, sub, cat, vs, -, -, -, hgeq⟩ :=
      buildSubjects_groups df j1 _ 0 gs thrs hbs g hg'
    subst hgeq
    obtain ⟨q, hq, hpq⟩ := List.mem_map.mp hp
    constructor
    · rw [← hpq]
      show |xPosOf i cat + j1 i cat q.1 - xPosOf i cat| ≤ jitterBound
      rw [add_sub_cancel_left]
      exact hb i cat q.1
    · rw [← hpq]
      show q.2 ∈ vs
      have h2 := List.mem_map_of_mem Prod.snd hq
      rw [show vs.enum = vs.enumFrom 0 from rfl, List.enumFrom_map_snd] at h2
      exact h2

/-- C8 witness: two concrete draw streams on `dfC1`. -/
theorem jitter_independence_spec_witness :
    stripOutcome (create_hrv_plot (ReadCsvResult.frame dfC1) (fun _ _ _ => 1/50)) =
      stripOutcome (create_hrv_plot (ReadCsvResult.frame dfC1) jit0) ∧
    jitterBound = offset / 5 ∧
    ∀ ch, create_hrv_plot (ReadCsvResult.frame dfC1) (fun _ _ _ => 1/50) =
        Outcome.saved ch →
      ∀ g ∈ ch.groups, ∀ p ∈ g.scatter,
        |p.1 - g.xPos| ≤ jitterBound ∧ p.2 ∈ g.boxData :=
  jitter_independence_spec (ReadCsvResult.frame dfC1) (fun _ _ _ => 1/50) jit0
    (fun i cat k => by
      show |(1 : ℚ)/50| ≤ jitterBound
      rw [abs_of_pos (by norm_num : (0 : ℚ) < 1/50)]
      norm_num [jitterBound])

end StressWatch
